import Mathlib

/-!
# Verification of the Donizo material scraper

A shallow embedding of `src/scraper.py` and `src/api_server.py`.
Python floats are modelled as rationals; Python `None` as `Option.none`;
the external collaborators (HTTP transport, HTML DOM queries, JSON file
encoding, URL arithmetic) are modelled by their observable results, as the
spec scopes them out of the program proper.

The file is organised as: data model and operations first (translated from
the source), then the lemmas and theorems about them.
-/

set_option maxHeartbeats 1000000

namespace Donizo

/-- The `Product` dataclass of `scraper.py`: one harvested product record. -/
structure Product where
  name : String
  category : String
  price : ℚ
  currency : String
  product_url : String
  brand : Option String := none
  unit : Option String := none
  pack_size : Option String := none
  image_url : Option String := none
  in_stock : Bool := true
  supplier : String := ""
  scraped_at : String := ""
deriving DecidableEq, Repr

/-- Numeric value of a digit string, e.g. `['2','9'] ↦ 29`. -/
def natValN (cs : List Char) : ℕ :=
  cs.foldl (fun a c => 10 * a + (c.toNat - 48)) 0

/-- Numeric value of a digit string, as a rational. -/
def natVal (cs : List Char) : ℚ := (natValN cs : ℚ)

/-- Python `float(...)` restricted to strings over digits, dots and commas —
the only characters that survive the cleaning step of `_parse_price`.  It
succeeds on an optional integer part and optional fractional part around at
most one dot, with at least one digit in total; a comma, a second dot, or a
digitless string fails (`ValueError` in Python).  The decimal value
`ip + frac / 10 ^ |frac|` is built with `mkRat` to keep it computable. -/
def pyFloat (cs : List Char) : Option ℚ :=
  let ip := cs.takeWhile (fun c => c != '.')
  let rest := cs.dropWhile (fun c => c != '.')
  if ip.all Char.isDigit then
    match rest with
    | [] => if ip.isEmpty then none else some (natVal ip)
    | _ :: frac =>
      if frac.all Char.isDigit && (!ip.isEmpty || !frac.isEmpty) then
        some (mkRat ((natValN ip * 10 ^ frac.length + natValN frac : ℕ) : ℤ)
          (10 ^ frac.length))
      else none
  else none

/-- `MaterialScraper._parse_price`: empty text yields `(0, "EUR")`; otherwise
replace every comma by a dot (Python `str.replace(',', '.')` with a
one-character pattern is a character-wise substitution), keep only digits,
commas and dots (`re.sub(r'[^\d,.]', '', ...)`), and attempt a float parse;
on failure return `(0, "EUR")`.  The currency is `"EUR"` on every path.
The function is total: the Python code catches the only possible
`ValueError`. -/
def parse_price (s : String) : ℚ × String :=
  if s = "" then (0, "EUR")
  else
    let replaced := s.data.map (fun c => if c = ',' then '.' else c)
    let cleaned := replaced.filter (fun c => c.isDigit || c == ',' || c == '.')
    match pyFloat cleaned with
    | some q => (q, "EUR")
    | none => (0, "EUR")

/-- Python's substring test `sub in hay`, on character lists. -/
def listContainsSub (hay sub : List Char) : Bool :=
  if sub.isPrefixOf hay then true
  else match hay with
    | [] => false
    | _ :: t => listContainsSub t sub

/-- Python's substring test `sub in hay`, on strings. -/
def strContains (hay sub : String) : Bool :=
  listContainsSub hay.data sub.data

/-- Python `str.lower()`: character-wise lowercasing.  Like Lean's
`String.toLower` this only folds ASCII letters (a faithful under-
approximation of Unicode lowercasing; every string compared by the claims
is ASCII); implemented on the character list so that it evaluates. -/
def pyLower (s : String) : String := String.mk (s.data.map Char.toLower)

/-- The observable outcome of the single HTTP request issued by
`_fetch_page`: a response with a status code and body text, or a raised
transport exception / timeout carrying its description. -/
inductive FetchOutcome where
  | response (status : ℕ) (body : String)
  | exc (reason : String)
deriving DecidableEq, Repr

/-- `MaterialScraper._fetch_page`: the body is returned for a status-200
response; every other status and every raised exception yields `none` (an
explicit failure value — the `try/except` converts exceptions, and the
politeness delay does not affect the result). -/
def fetch_page (o : FetchOutcome) : Option String :=
  match o with
  | .response status body => if status = 200 then some body else none
  | .exc _ => none

/-- One DOM element as observed by the extractor: its stripped text
(`get_text(strip=True)`), its raw text (`get_text()`), and its `title`
attribute when present. The DOM itself is an external collaborator. -/
structure Elem where
  textStrip : String
  text : String
  titleAttr : Option String := none
deriving DecidableEq, Repr

/-- An `<img>` element as observed by the extractor: its `src` and
`data-src` attributes, each possibly absent or empty. -/
structure ImgElem where
  src : Option String := none
  dataSrc : Option String := none
deriving DecidableEq, Repr

/-- One product container fragment, modelled by the results of the fixed
BeautifulSoup queries performed by `_parse_leroymerlin_product`:
* `nameByClass`: `find(['h2','h3','a'], class_=re.compile(r'title|name|product', re.I))`;
* `anchorTitled`: `find('a', title=True)`;
* `anchorHref`: the `href` value of `find('a', href=True)`;
* `priceByClass`: `find(['span','div'], class_=re.compile(r'price|prix', re.I))`;
* `priceTextParent`: the parent of the first text node matching the price regex;
* `brandElem`: `find(['span','div'], class_=re.compile(r'brand|marque', re.I))`;
* `imgElem`: `find('img')`;
* `stockElem`: `find(['span','div'], class_=re.compile(r'stock|disponib', re.I))`. -/
structure Container where
  nameByClass : Option Elem := none
  anchorTitled : Option Elem := none
  anchorHref : Option String := none
  priceByClass : Option Elem := none
  priceTextParent : Option Elem := none
  brandElem : Option Elem := none
  imgElem : Option ImgElem := none
  stockElem : Option Elem := none
deriving DecidableEq, Repr

/-- URL resolution (`urllib.parse.urljoin`) is an external collaborator and
no claim depends on its arithmetic; it is modelled as concatenation. -/
def urljoin (base path : String) : String := base ++ path

/-- `MaterialScraper._extract_unit`: the first token of the fixed unit list
that occurs case-insensitively in the text; empty text yields `none`.  The
token list is exactly the source's, mojibake spellings included. -/
def extract_unit (text : String) : Option String :=
  if text = "" then none
  else
    ["mÂ²", "m2", "cmÂ²", "cm2", "ml", "cl", "l", "kg", "g",
      "piÃ¨ce", "lot", "paquet"].find? (fun u => strContains (pyLower text) (pyLower u))

/-- Python `a or b` where `a`, `b` are `str`-or-`None`: `a` unless it is
`None` or empty. -/
def pyOrStr (a b : Option String) : Option String :=
  match a with
  | some s => if s ≠ "" then some s else b
  | none => b

/-- `MaterialScraper._parse_leroymerlin_product`: heuristic extraction of one
`Product` from a container fragment; `none` models both `return None` paths
(no name candidate, no href anchor).  `now` stands for the
`datetime.now().isoformat()` timestamp set by `Product.__post_init__`. -/
def parse_leroymerlin_product (c : Container) (category base now : String) :
    Option Product :=
  let nameElem := match c.nameByClass with
    | some e => some e
    | none => c.anchorTitled
  match nameElem with
  | none => none
  | some ne =>
    let name := if ne.textStrip ≠ "" then ne.textStrip else ne.titleAttr.getD ""
    match c.anchorHref with
    | none => none
    | some href =>
      let priceElem := match c.priceByClass with
        | some e => some e
        | none => c.priceTextParent
      let pc := parse_price (match priceElem with | some e => e.text | none => "0")
      let image_url := match c.imgElem with
        | none => none
        | some img =>
          match pyOrStr img.src img.dataSrc with
          | none => none
          | some u => if u ≠ "" ∧ ¬ u.startsWith "http" then some (urljoin base u) else some u
      let in_stock := match c.stockElem with
        | none => true
        | some e => strContains (pyLower e.text) "disponible" ||
            strContains (pyLower e.text) "en stock"
      some { name := name, category := category, price := pc.1, currency := pc.2,
             product_url := urljoin base href,
             brand := c.brandElem.map (fun e => e.textStrip),
             unit := extract_unit name, pack_size := none,
             image_url := image_url, in_stock := in_stock,
             supplier := "Leroy Merlin", scraped_at := now }

/-- The per-page extraction loop of `_scrape_leroymerlin_category`: parse
each container of `containers[:room]` in order, keeping the successes
(`room = max_products - len(products)`, the Python slice bound, is
evaluated once at the start of the page). -/
def pageProducts (containers : List Container) (category base now : String)
    (room : ℕ) : List Product :=
  (containers.take room).filterMap
    (fun c => parse_leroymerlin_product c category base now)

/-- The `while` loop of `_scrape_leroymerlin_category`.  `env page` is the
container list the two selector attempts find in the fetched page (`none` =
fetch failed); `acc` the accumulated products, `page` the next page number,
`fetches` the number of fetches issued so far.  Terminates because every
recursive call requires `page + 1 ≤ 10` (the `page > 10` safety break). -/
def scrape_loop (env : ℕ → Option (List Container)) (category base now : String)
    (maxProducts : ℕ) (acc : List Product) (page fetches : ℕ) :
    List Product × ℕ :=
  if acc.length < maxProducts then
    match env page with
    | none => (acc, fetches + 1)
    | some containers =>
      if containers.isEmpty then (acc, fetches + 1)
      else
        if (pageProducts containers category base now (maxProducts - acc.length)).isEmpty then
          (acc ++ pageProducts containers category base now (maxProducts - acc.length),
            fetches + 1)
        else if 10 < page + 1 then
          (acc ++ pageProducts containers category base now (maxProducts - acc.length),
            fetches + 1)
        else scrape_loop env category base now maxProducts
          (acc ++ pageProducts containers category base now (maxProducts - acc.length))
          (page + 1) (fetches + 1)
  else (acc, fetches)
termination_by 10 - page
decreasing_by omega

/-- `MaterialScraper._scrape_leroymerlin_category`: run the pagination loop
from page 1 with an empty accumulator; returns the collected products and
the number of pages fetched. -/
def scrape_category (env : ℕ → Option (List Container)) (category base now : String)
    (maxProducts : ℕ) : List Product × ℕ :=
  scrape_loop env category base now maxProducts [] 1 0

/-- JSON values as produced/consumed by the Python `json` module.  Numbers
are rationals; the byte-level encoding is an external collaborator, so a
file's parsed content is modelled directly as a `Json` value. -/
inductive Json where
  | null
  | bool (b : Bool)
  | num (q : ℚ)
  | str (s : String)
  | arr (items : List Json)
  | obj (fields : List (String × Json))

/-- Python `dict.get(key, default)` on a JSON object's field list. -/
def jGet (fields : List (String × Json)) (key : String) (dflt : Json) : Json :=
  match fields.find? (fun kv => kv.1 == key) with
  | some kv => kv.2
  | none => dflt

/-- An optional string as a JSON value (`None ↦ null`). -/
def optStrJson : Option String → Json
  | some s => .str s
  | none => .null

/-- `dataclasses.asdict` on a `Product`: the persisted dictionary for one
record, fields in dataclass declaration order. -/
def productToJson (p : Product) : Json :=
  .obj [("name", .str p.name), ("category", .str p.category),
        ("price", .num p.price), ("currency", .str p.currency),
        ("product_url", .str p.product_url),
        ("brand", optStrJson p.brand), ("unit", optStrJson p.unit),
        ("pack_size", optStrJson p.pack_size), ("image_url", optStrJson p.image_url),
        ("in_stock", .bool p.in_stock), ("supplier", .str p.supplier),
        ("scraped_at", .str p.scraped_at)]

/-- `MaterialScraper.save_data`: the snapshot document written to the file —
`scraped_at` (the current timestamp), `total_products = len(self.products)`
and the record sequence in order. -/
def save_data (products : List Product) (now : String) : Json :=
  .obj [("scraped_at", .str now), ("total_products", .num products.length),
        ("products", .arr (products.map productToJson))]

/-- A JSON string as an optional string; anything else (in particular
`null`) as `none`. -/
def jsonOptStr : Json → Option String
  | .str s => some s
  | _ => none

/-- Decoder inverse to `productToJson`: reads each record field back from the
persisted dictionary, witnessing that the snapshot determines every field of
the saved record ("field-for-field"). -/
def jsonToProduct (j : Json) : Option Product :=
  match j with
  | .obj fields =>
    match jGet fields "name" .null, jGet fields "category" .null,
      jGet fields "price" .null, jGet fields "currency" .null,
      jGet fields "product_url" .null, jGet fields "in_stock" .null,
      jGet fields "supplier" .null, jGet fields "scraped_at" .null with
    | .str name, .str category, .num price, .str currency, .str url,
        .bool st, .str sup, .str ts =>
      some { name := name, category := category, price := price,
             currency := currency, product_url := url,
             brand := jsonOptStr (jGet fields "brand" .null),
             unit := jsonOptStr (jGet fields "unit" .null),
             pack_size := jsonOptStr (jGet fields "pack_size" .null),
             image_url := jsonOptStr (jGet fields "image_url" .null),
             in_stock := st, supplier := sup, scraped_at := ts }
    | _, _, _, _, _, _, _, _ => none
  | _ => none

/-- What the serving layer finds at the snapshot location: no file
(`FileNotFoundError`), a file whose text fails JSON parsing
(`json.JSONDecodeError`), or a parsed JSON document. -/
inductive SnapshotFile where
  | missing
  | unparsable
  | parsed (doc : Json)

/-- `DonizoAPI._load_data`: a missing file or a JSON parse failure is caught
and yields the empty dataset (`products=[]`, `total_products=0`, fresh
`scraped_at` from `datetime.now()`); a parsed JSON object is returned as-is.
The logging line `data.get('total_products', 0)` runs before the return, so
a parsed document that is not an object raises an uncaught `AttributeError`,
modelled as `Except.error`. -/
def load_data (f : SnapshotFile) (now : String) : Except String Json :=
  match f with
  | .missing => .ok (.obj [("products", .arr []), ("total_products", .num 0),
      ("scraped_at", .str now)])
  | .unparsable => .ok (.obj [("products", .arr []), ("total_products", .num 0),
      ("scraped_at", .str now)])
  | .parsed doc =>
    match doc with
    | .obj fields => .ok (.obj fields)
    | _ => .error "AttributeError"

/-- The optional query filters of `GET /materials`. -/
structure Filters where
  category : Option String := none
  supplier : Option String := none
  min_price : Option ℚ := none
  max_price : Option ℚ := none
  brand : Option String := none
  in_stock : Option Bool := none
  search : Option String := none

/-- A value echoed in the `filters_applied` dictionary. -/
inductive FilterVal where
  | s (v : String)
  | q (v : ℚ)
  | b (v : Bool)
deriving DecidableEq, Repr

/-- The sequential filtering steps of `get_materials`, in source order.
String-valued filters are guarded by Python truthiness (`if category:` —
absent or empty means not applied); the numeric and boolean ones by
`is not None`.  `.lower()` is modelled by `pyLower`. -/
def applyFilters (data : List Product) (f : Filters) : List Product :=
  let ps := data
  let ps := match f.category with
    | some c => if c ≠ "" then ps.filter (fun p => pyLower p.category == pyLower c) else ps
    | none => ps
  let ps := match f.supplier with
    | some s => if s ≠ "" then
        ps.filter (fun p => strContains (pyLower p.supplier) (pyLower s)) else ps
    | none => ps
  let ps := match f.min_price with
    | some m => ps.filter (fun p => m ≤ p.price)
    | none => ps
  let ps := match f.max_price with
    | some m => ps.filter (fun p => p.price ≤ m)
    | none => ps
  let ps := match f.brand with
    | some b => if b ≠ "" then
        ps.filter (fun p => strContains (pyLower (p.brand.getD "")) (pyLower b)) else ps
    | none => ps
  let ps := match f.in_stock with
    | some st => ps.filter (fun p => p.in_stock == st)
    | none => ps
  let ps := match f.search with
    | some s => if s ≠ "" then ps.filter (fun p => strContains (pyLower p.name) (pyLower s)) else ps
    | none => ps
  ps

/-- The `filters_applied` echo dictionary, built with the same guards and in
the same order as the filtering steps. -/
def filtersApplied (f : Filters) : List (String × FilterVal) :=
  (match f.category with
    | some c => if c ≠ "" then [("category", FilterVal.s c)] else [] | none => []) ++
  (match f.supplier with
    | some s => if s ≠ "" then [("supplier", FilterVal.s s)] else [] | none => []) ++
  (match f.min_price with
    | some m => [("min_price", FilterVal.q m)] | none => []) ++
  (match f.max_price with
    | some m => [("max_price", FilterVal.q m)] | none => []) ++
  (match f.brand with
    | some b => if b ≠ "" then [("brand", FilterVal.s b)] else [] | none => []) ++
  (match f.in_stock with
    | some st => [("in_stock", FilterVal.b st)] | none => []) ++
  (match f.search with
    | some s => if s ≠ "" then [("search", FilterVal.s s)] else [] | none => [])

/-- The single conjunctive predicate "this record satisfies all supplied
filters".  `applyFilters` is proved equal to one `List.filter` by it. -/
def matchesFilters (f : Filters) (p : Product) : Bool :=
  (match f.category with
    | some c => if c ≠ "" then pyLower p.category == pyLower c else true | none => true) &&
  (match f.supplier with
    | some s => if s ≠ "" then strContains (pyLower p.supplier) (pyLower s) else true
    | none => true) &&
  (match f.min_price with | some m => decide (m ≤ p.price) | none => true) &&
  (match f.max_price with | some m => decide (p.price ≤ m) | none => true) &&
  (match f.brand with
    | some b => if b ≠ "" then strContains (pyLower (p.brand.getD "")) (pyLower b) else true
    | none => true) &&
  (match f.in_stock with | some st => p.in_stock == st | none => true) &&
  (match f.search with
    | some s => if s ≠ "" then strContains (pyLower p.name) (pyLower s) else true | none => true)

/-- The response of `GET /materials`. -/
structure MaterialsResponse where
  total : ℕ
  page : ℕ
  per_page : ℕ
  total_pages : ℕ
  products : List Product
  filters_applied : List (String × FilterVal)

/-- `GET /materials` (`get_materials` in `api_server.py`): filter, count,
compute `total_pages = (total + per_page - 1) // per_page`, then slice
`products[start:end]` with `start = (page-1)*per_page`,
`end = start + per_page` — i.e. drop `start`, take `per_page`.  FastAPI's
query validation (`page ≥ 1`, `1 ≤ per_page ≤ 100`) runs before this body. -/
def get_materials (data : List Product) (f : Filters) (page per_page : ℕ) :
    MaterialsResponse :=
  let ps := applyFilters data f
  let total := ps.length
  let total_pages := (total + per_page - 1) / per_page
  let start := (page - 1) * per_page
  let paginated := (ps.drop start).take per_page
  { total := total, page := page, per_page := per_page, total_pages := total_pages,
    products := paginated, filters_applied := filtersApplied f }

/-- One step of the Python `dict` build-up in `get_categories` /
`get_suppliers`: append `p` to the group of key `k`, creating the group at
the end on first sight (dict preserves insertion order). -/
def groupInsert (acc : List (String × List Product)) (k : String) (p : Product) :
    List (String × List Product) :=
  match acc with
  | [] => [(k, [p])]
  | (k', l) :: t => if k' = k then (k', l ++ [p]) :: t else (k', l) :: groupInsert t k p

/-- Grouping a product list by a key, as the Python loops build it. -/
def groupByKey (key : Product → String) (products : List Product) :
    List (String × List Product) :=
  products.foldl (fun acc p => groupInsert acc (key p) p) []

/-- First-seen deduplication; models iterating a Python `set` whose order is
unspecified — only membership and size are meaningful downstream. -/
def dedupFirst (l : List String) : List String :=
  l.foldl (fun acc s => if s ∈ acc then acc else acc ++ [s]) []

/-- Python `min(l)` on a nonempty list (`[]` is guarded in the source). -/
def listMin : List ℚ → ℚ
  | [] => 0
  | h :: t => t.foldl min h

/-- Python `max(l)` on a nonempty list (`[]` is guarded in the source). -/
def listMax : List ℚ → ℚ
  | [] => 0
  | h :: t => t.foldl max h

/-- One entry of the `GET /categories` response; `price_range` is flattened
into `price_min` / `price_max`. -/
structure CategoryResponse where
  name : String
  product_count : ℕ
  average_price : ℚ
  price_min : ℚ
  price_max : ℚ
  suppliers : List String
deriving DecidableEq, Repr

/-- The aggregation body of `get_categories` for one key: all records count
into `product_count`; `average_price` and the price range are computed over
the strictly positive prices only, and are 0 when there are none. -/
def mkCategoryResponse (name : String) (group : List Product) : CategoryResponse :=
  let prices := (group.map (fun p => p.price)).filter (fun q => 0 < q)
  { name := name, product_count := group.length,
    average_price := if prices.isEmpty then 0 else prices.sum / (prices.length : ℚ),
    price_min := if prices.isEmpty then 0 else listMin prices,
    price_max := if prices.isEmpty then 0 else listMax prices,
    suppliers := dedupFirst (group.map (fun p => p.supplier)) }

/-- `GET /categories`: group by category, aggregate per key, sort by product
count descending (Python `sorted` with `reverse=True` is stable, keeping
first-seen order on ties). -/
def get_categories (products : List Product) : List CategoryResponse :=
  ((groupByKey (fun p => p.category) products).map
    (fun kg => mkCategoryResponse kg.1 kg.2)).mergeSort
    (fun a b => decide (b.product_count ≤ a.product_count))

/-- One entry of the `GET /suppliers` response. -/
structure SupplierResponse where
  name : String
  product_count : ℕ
  categories : List String
  average_price : ℚ
  last_updated : String
deriving DecidableEq, Repr

/-- The aggregation body of `get_suppliers` for one key: same counting and
positive-price average semantics as categories (no price range here). -/
def mkSupplierResponse (name : String) (group : List Product) (lastUpdated : String) :
    SupplierResponse :=
  let prices := (group.map (fun p => p.price)).filter (fun q => 0 < q)
  { name := name, product_count := group.length,
    categories := dedupFirst (group.map (fun p => p.category)),
    average_price := if prices.isEmpty then 0 else prices.sum / (prices.length : ℚ),
    last_updated := lastUpdated }

/-- `GET /suppliers`: group by supplier, aggregate, sort by product count
descending. -/
def get_suppliers (products : List Product) (lastUpdated : String) :
    List SupplierResponse :=
  ((groupByKey (fun p => p.supplier) products).map
    (fun kg => mkSupplierResponse kg.1 kg.2 lastUpdated)).mergeSort
    (fun a b => decide (b.product_count ≤ a.product_count))

/-- The response of `GET /stats`; `price_range` flattened into min/max. -/
structure StatsResponse where
  total_products : ℕ
  total_suppliers : ℕ
  total_categories : ℕ
  average_price : ℚ
  price_min : ℚ
  price_max : ℚ
  last_updated : String
deriving DecidableEq, Repr

/-- `GET /stats`: all-zero on an empty catalog; otherwise distinct supplier
and category counts, and average/min/max over strictly positive prices. -/
def get_stats (products : List Product) (lastUpdated : String) : StatsResponse :=
  if products.isEmpty then
    { total_products := 0, total_suppliers := 0, total_categories := 0,
      average_price := 0, price_min := 0, price_max := 0,
      last_updated := lastUpdated }
  else
    let prices := (products.map (fun p => p.price)).filter (fun q => 0 < q)
    { total_products := products.length,
      total_suppliers := (dedupFirst (products.map (fun p => p.supplier))).length,
      total_categories := (dedupFirst (products.map (fun p => p.category))).length,
      average_price := if prices.isEmpty then 0 else prices.sum / (prices.length : ℚ),
      price_min := if prices.isEmpty then 0 else listMin prices,
      price_max := if prices.isEmpty then 0 else listMax prices,
      last_updated := lastUpdated }

/-- The stock flag `_parse_leroymerlin_product` computes from the optional
stock-hinting element: `true` by default, else the "available" substring
test on the element's lowercased text. -/
def stockFlag (stockElem : Option Elem) : Bool :=
  match stockElem with
  | none => true
  | some e => strContains (pyLower e.text) "disponible" ||
      strContains (pyLower e.text) "en stock"

/-- A container whose name-classed element has empty text and no `title`
attribute, with a normal product link. -/
def emptyNameContainer : Container :=
  { nameByClass := some { textStrip := "", text := "", titleAttr := none },
    anchorHref := some "/p/1" }

/-- A container carrying a stock element whose text is "Indisponible". -/
def indisponibleContainer : Container :=
  { nameByClass := some { textStrip := "Cuvette WC", text := "Cuvette WC" },
    anchorHref := some "/p/2",
    stockElem := some { textStrip := "Indisponible", text := "Indisponible" } }

/-- Python `dict` access on the association-list model of the grouping
dictionaries: the group stored under a key (`[]` when absent).  Analysis
helper relating `groupByKey` to direct filtering. -/
def lookupGroup : List (String × List Product) → String → List Product
  | [], _ => []
  | (k0, l0) :: t, k => if k0 = k then l0 else lookupGroup t k

/-- The spec's aggregation example: category `"cat1"` with two priced
records (10 and 20) and one unparsed (price 0) record. -/
def cat1Example : List Product :=
  [{ name := "P1", category := "cat1", price := 10, currency := "EUR",
     product_url := "u1", supplier := "S1", scraped_at := "t" },
   { name := "P2", category := "cat1", price := 20, currency := "EUR",
     product_url := "u2", supplier := "S1", scraped_at := "t" },
   { name := "P3", category := "cat1", price := 0, currency := "EUR",
     product_url := "u3", supplier := "S1", scraped_at := "t" }]

/-- The aggregate the spec expects for `cat1Example`. -/
def cat1Response : CategoryResponse :=
  { name := "cat1", product_count := 3, average_price := 15,
    price_min := 10, price_max := 20, suppliers := ["S1"] }

/-- A 45-record catalog for the pagination sanity claim: 45 records of one
category from one supplier. -/
def catalog45 : List Product :=
  List.replicate 45
    { name := "Produit", category := "carrelage", price := 10, currency := "EUR",
      product_url := "https://www.leroymerlin.fr/p", supplier := "Leroy Merlin",
      scraped_at := "2025-01-01T00:00:00" }

/-!
## Scratch checks and lemmas
-/

example : parse_price "29,99 €" = (mkRat 2999 100, "EUR") := by decide
example : parse_price "159.50€" = (mkRat 3190 20, "EUR") := by decide
example : parse_price "1 299,00 EUR" = (mkRat 1299 1, "EUR") := by decide
example : parse_price "invalid" = (0, "EUR") := by decide
example : parse_price "" = (0, "EUR") := by decide
example : strContains "indisponible" "disponible" = true := by decide
example : strContains "en rupture" "disponible" = false := by decide

lemma digit_ne_comma {c : Char} (h : c.isDigit = true) : c ≠ ',' := by
  intro hc; subst hc; simp [Char.isDigit] at h

lemma digit_ne_dot {c : Char} (h : c.isDigit = true) : c ≠ '.' := by
  intro hc; subst hc; simp [Char.isDigit] at h

lemma map_comma_id_of_digits (l : List Char) (h : l.all Char.isDigit) :
    l.map (fun c => if c = ',' then '.' else c) = l := by
  induction l with
  | nil => rfl
  | cons c t ih =>
    simp only [List.all_cons, Bool.and_eq_true] at h
    simp only [List.map_cons, if_neg (digit_ne_comma h.1), ih h.2]

lemma filter_keep_of_digits (l : List Char) (h : l.all Char.isDigit) :
    l.filter (fun c => c.isDigit || c == ',' || c == '.') = l := by
  induction l with
  | nil => rfl
  | cons c t ih =>
    simp only [List.all_cons, Bool.and_eq_true] at h
    rw [List.filter_cons_of_pos (by simp [h.1]), ih h.2]

lemma takeWhile_digits_dot (d r : List Char) (h : d.all Char.isDigit) :
    (d ++ '.' :: r).takeWhile (fun c => c != '.') = d := by
  induction d with
  | nil => simp [List.takeWhile]
  | cons c t ih =>
    simp only [List.all_cons, Bool.and_eq_true] at h
    simp only [List.cons_append, List.takeWhile_cons]
    rw [if_pos (by simp [digit_ne_dot h.1]), ih h.2]

lemma dropWhile_digits_dot (d r : List Char) (h : d.all Char.isDigit) :
    (d ++ '.' :: r).dropWhile (fun c => c != '.') = '.' :: r := by
  induction d with
  | nil => simp [List.dropWhile]
  | cons c t ih =>
    simp only [List.all_cons, Bool.and_eq_true] at h
    simp only [List.cons_append, List.dropWhile_cons]
    rw [if_pos (by simp [digit_ne_dot h.1]), ih h.2]

lemma mkRat_decimal (a b k : ℕ) :
    (mkRat ((a * 10 ^ k + b : ℕ) : ℤ) (10 ^ k) : ℚ) = (a : ℚ) + (b : ℚ) / 10 ^ k := by
  have hk : ((10 : ℚ) ^ k) ≠ 0 := by positivity
  rw [Rat.mkRat_eq_div]
  push_cast
  field_simp

lemma pyFloat_decimal (d1 d2 : List Char) (h1 : d1.all Char.isDigit)
    (h2 : d2.all Char.isDigit) (hne : d2 ≠ []) :
    pyFloat (d1 ++ '.' :: d2) = some (natVal d1 + natVal d2 / 10 ^ d2.length) := by
  unfold pyFloat
  rw [takeWhile_digits_dot _ _ h1, dropWhile_digits_dot _ _ h1]
  simp only [h1, if_true]
  rw [if_pos (by simp [h2, List.isEmpty_iff, hne])]
  rw [mkRat_decimal]
  rfl

lemma pyFloat_dots (cs : List Char) (h : ∀ c ∈ cs, c = '.') : pyFloat cs = none := by
  unfold pyFloat
  cases cs with
  | nil => rfl
  | cons c t =>
    have hc : c = '.' := h c (by simp)
    subst hc
    rw [show ('.' :: t).takeWhile (fun c => c != '.') = [] by simp [List.takeWhile],
        show ('.' :: t).dropWhile (fun c => c != '.') = '.' :: t by simp [List.dropWhile]]
    simp only [List.all_nil, if_true]
    cases t with
    | nil => simp
    | cons c' t' =>
      have hc' : c' = '.' := h c' (by simp)
      subst hc'
      simp [List.all_cons, Char.isDigit]

/-- C2: for every price string `<digits><,|.><digits>` optionally followed by
a euro sign (with or without a leading space), `_parse_price` returns the
decimal value with the comma treated as a decimal separator and currency
`"EUR"`; the empty string and any input without a digit yield `(0, "EUR")`.
Totality of `parse_price` (the "never throws" part) holds by construction. -/
theorem parse_price_contract :
    (∀ (d1 d2 : List Char) (sep : Char) (suf : List Char),
      d1 ≠ [] → d2 ≠ [] → d1.all Char.isDigit → d2.all Char.isDigit →
      sep = ',' ∨ sep = '.' →
      suf = [] ∨ suf = ['€'] ∨ suf = [' ', '€'] →
      parse_price (String.mk (d1 ++ sep :: (d2 ++ suf))) =
        (natVal d1 + natVal d2 / 10 ^ d2.length, "EUR")) ∧
    parse_price "" = (0, "EUR") ∧
    (∀ s : String, (∀ c ∈ s.data, ¬ c.isDigit) → parse_price s = (0, "EUR")) := by
  refine ⟨?_, by decide, ?_⟩
  · intro d1 d2 sep suf hd1 hd2 h1 h2 hsep hsuf
    have hne : String.mk (d1 ++ sep :: (d2 ++ suf)) ≠ "" := by
      intro h
      have : d1 ++ sep :: (d2 ++ suf) = [] := congrArg String.data h
      simp at this
    unfold parse_price
    rw [if_neg hne]
    show (match pyFloat _ with
      | some q => (q, "EUR")
      | none => (0, "EUR")) = _
    have hsep' : (if sep = ',' then '.' else sep) = '.' := by
      rcases hsep with h | h <;> subst h <;> simp
    have hmap : (d1 ++ sep :: (d2 ++ suf)).map (fun c => if c = ',' then '.' else c) =
        d1 ++ '.' :: (d2 ++ suf.map (fun c => if c = ',' then '.' else c)) := by
      simp only [List.map_append, List.map_cons, hsep',
        map_comma_id_of_digits d1 h1, map_comma_id_of_digits d2 h2]
    have hsufmap : suf.map (fun c => if c = ',' then '.' else c) = suf := by
      rcases hsuf with h | h | h <;> subst h <;> decide
    have hfilter :
        (d1 ++ '.' :: (d2 ++ suf)).filter (fun c => c.isDigit || c == ',' || c == '.') =
        d1 ++ '.' :: d2 := by
      have hsuffilter : suf.filter (fun c => c.isDigit || c == ',' || c == '.') = [] := by
        rcases hsuf with h | h | h <;> subst h <;> decide
      simp only [List.filter_append, List.filter_cons,
        filter_keep_of_digits d1 h1, filter_keep_of_digits d2 h2, hsuffilter]
      simp
    rw [show (String.mk (d1 ++ sep :: (d2 ++ suf))).data = d1 ++ sep :: (d2 ++ suf) from rfl]
    rw [hmap, hsufmap, hfilter, pyFloat_decimal d1 d2 h1 h2 hd2]
  · intro s hs
    by_cases hempty : s = ""
    · subst hempty; decide
    unfold parse_price
    rw [if_neg hempty]
    show (match pyFloat _ with
      | some q => (q, "EUR")
      | none => (0, "EUR")) = _
    have hdots : ∀ c ∈ (s.data.map (fun c => if c = ',' then '.' else c)).filter
        (fun c => c.isDigit || c == ',' || c == '.'), c = '.' := by
      intro c hc
      simp only [List.mem_filter, List.mem_map] at hc
      obtain ⟨⟨c0, hc0, rfl⟩, hkeep⟩ := hc
      have hnd : ¬ c0.isDigit := hs c0 hc0
      by_cases h0 : c0 = ','
      · subst h0; simp
      · simp only [if_neg h0] at hkeep ⊢
        simp only [Bool.or_eq_true, beq_iff_eq] at hkeep
        rcases hkeep with (h | h) | h
        · exact absurd h hnd
        · exact absurd h h0
        · exact h
    rw [pyFloat_dots _ hdots]

/-- Witness for C2: the spec's own examples `"29,99 €" ↦ (29.99, EUR)` and
`"invalid" ↦ (0, EUR)`, plus the empty string. -/
theorem parse_price_contract_witness :
    parse_price "29,99 €" = (29 + 99 / 100, "EUR") ∧
    parse_price "" = (0, "EUR") ∧
    parse_price "invalid" = (0, "EUR") := by
  refine ⟨?_, parse_price_contract.2.1, parse_price_contract.2.2 "invalid" (by decide)⟩
  have h := parse_price_contract.1 ['2', '9'] ['9', '9'] ',' [' ', '€']
    (by decide) (by decide) (by decide) (by decide) (Or.inl rfl) (Or.inr (Or.inr rfl))
  have e : String.mk (['2', '9'] ++ ',' :: (['9', '9'] ++ [' ', '€'])) = "29,99 €" := by decide
  rw [e] at h
  rw [h]
  norm_num [natVal, show natValN ['2', '9'] = 29 from rfl, show natValN ['9', '9'] = 99 from rfl]

/-- C4 counterexample: a 201 response is an HTTP 2xx success, yet
`_fetch_page` discards its body and reports failure — the code tests
`status == 200`, not "2xx". -/
theorem fetch_page_2xx_counterexample :
    (200 ≤ 201 ∧ 201 < 300) ∧ fetch_page (.response 201 "created") = none := by
  decide

/-- C4 (amended): `_fetch_page` returns the page body exactly for a
status-200 response; every other status, every transport error and every
timeout yields the explicit failure value `none`, and no exception
propagates (the function is total). -/
theorem fetch_page_amended :
    (∀ b, fetch_page (.response 200 b) = some b) ∧
    (∀ s b, fetch_page (.response s b) ≠ none ↔ s = 200) ∧
    (∀ r, fetch_page (.exc r) = none) := by
  refine ⟨fun b => rfl, fun s b => ?_, fun r => rfl⟩
  by_cases hs : s = 200 <;> simp [fetch_page, hs]

/-- C5 counterexample: a record with an *empty* name is constructed (and so
would be persisted), because the guard only checks that a candidate element
exists, not that its text is non-empty. -/
theorem record_nonempty_name_counterexample :
    (parse_leroymerlin_product emptyNameContainer "carrelage"
      "https://www.leroymerlin.fr" "t").map (fun p => p.name) = some "" := by
  decide

/-- C5 (amended): extraction returns `null` exactly when there is no name
candidate (neither a class-matched heading/link nor a titled anchor) or no
anchor with an `href`; in particular a missing name candidate discards the
record.  A constructed record's name is the candidate's stripped text (or
its `title` attribute when that text is empty) and may itself be empty:
non-emptiness of persisted names is not guaranteed. -/
theorem parse_product_discard_amended (c : Container) (category base now : String) :
    parse_leroymerlin_product c category base now = none ↔
      (c.nameByClass = none ∧ c.anchorTitled = none) ∨ c.anchorHref = none := by
  unfold parse_leroymerlin_product
  cases hn : c.nameByClass <;> cases ht : c.anchorTitled <;>
    cases ha : c.anchorHref <;> simp

/-- C9: whenever extraction constructs a record (a name candidate and an
href anchor are present), its `in_stock` flag is `true` when no
stock-hinting element exists, and otherwise exactly when the element's
lowercased text contains `"disponible"` or `"en stock"` as a substring — so
a text like "Indisponible" also yields `true`. -/
theorem in_stock_flag (c : Container) (category base now : String)
    (nameE : Elem) (href : String)
    (hn : c.nameByClass = some nameE) (ha : c.anchorHref = some href) :
    (parse_leroymerlin_product c category base now).map (fun p => p.in_stock) =
      some (stockFlag c.stockElem) := by
  unfold parse_leroymerlin_product
  rw [hn, ha]
  cases hs : c.stockElem <;> simp [stockFlag, hs]

/-- Witness for C9: on the "Indisponible" container the extracted flag is
`true` (the substring test matches "disponible" inside "indisponible"). -/
theorem in_stock_flag_witness :
    (parse_leroymerlin_product indisponibleContainer "wc" "https://b" "t").map
      (fun p => p.in_stock) = some true := by
  have h := in_stock_flag indisponibleContainer "wc" "https://b" "t"
    { textStrip := "Cuvette WC", text := "Cuvette WC" } "/p/2" rfl rfl
  rw [h]
  decide

/-- C6: `_load_data` on a missing snapshot file, and on a snapshot whose
text fails JSON parsing, returns normally (no exception) with a valid empty
catalog object: an empty `products` sequence, `total_products = 0` and a
fresh `scraped_at` timestamp. -/
theorem load_data_empty_on_failure (now : String) :
    (∃ fields, load_data SnapshotFile.missing now = .ok (.obj fields) ∧
      jGet fields "products" (.arr []) = .arr [] ∧
      jGet fields "total_products" (.num 0) = .num 0 ∧
      jGet fields "scraped_at" .null = .str now) ∧
    (∃ fields, load_data SnapshotFile.unparsable now = .ok (.obj fields) ∧
      jGet fields "products" (.arr []) = .arr [] ∧
      jGet fields "total_products" (.num 0) = .num 0 ∧
      jGet fields "scraped_at" .null = .str now) := by
  refine ⟨⟨_, rfl, rfl, rfl, rfl⟩, ⟨_, rfl, rfl, rfl, rfl⟩⟩

lemma jsonToProduct_productToJson (p : Product) :
    jsonToProduct (productToJson p) = some p := by
  obtain ⟨n, cat, pr, cur, url, b, u, ps, iu, st, sup, ts⟩ := p
  cases b <;> cases u <;> cases ps <;> cases iu <;>
    simp [jsonToProduct, productToJson, jGet, jsonOptStr, optStrJson]

/-- C7: save-then-load on the same location reproduces the snapshot: the
load succeeds and returns the saved document unchanged; its
`total_products` equals the number of saved records and its `products`
field holds exactly the saved records' dictionaries in order, from which
`jsonToProduct` recovers the original record sequence field-for-field. -/
theorem save_load_roundtrip (products : List Product) (now reload : String) :
    load_data (.parsed (save_data products now)) reload = .ok (save_data products now) ∧
    (∃ fields, save_data products now = .obj fields ∧
      jGet fields "total_products" .null = .num (products.length : ℚ) ∧
      jGet fields "products" .null = .arr (products.map productToJson) ∧
      jGet fields "scraped_at" .null = .str now) ∧
    (products.map productToJson).map jsonToProduct = products.map some := by
  refine ⟨rfl, ⟨_, rfl, rfl, rfl, rfl⟩, ?_⟩
  induction products with
  | nil => rfl
  | cons p t ih =>
    simp only [List.map_cons, jsonToProduct_productToJson, ih]

lemma pageProducts_length_le (containers : List Container)
    (category base now : String) (room : ℕ) :
    (pageProducts containers category base now room).length ≤ room := by
  unfold pageProducts
  exact le_trans (List.length_filterMap_le _ _) (by simp)

lemma scrape_loop_bounds (env : ℕ → Option (List Container))
    (category base now : String) (maxP : ℕ) :
    ∀ (fuel page : ℕ), 10 - page ≤ fuel → page ≤ 10 →
      ∀ (acc : List Product) (fetches : ℕ), acc.length ≤ maxP →
      (scrape_loop env category base now maxP acc page fetches).1.length ≤ maxP ∧
      (scrape_loop env category base now maxP acc page fetches).2 ≤
        fetches + (11 - page) := by
  intro fuel
  induction fuel with
  | zero =>
    intro page hf hp acc fetches hacc
    have hpage : page = 10 := by omega
    subst hpage
    rw [scrape_loop]
    split
    · rename_i hlt
      split
      · exact ⟨hacc, by omega⟩
      · rename_i containers henv
        split
        · exact ⟨hacc, by omega⟩
        · have hlen := pageProducts_length_le containers category base now
            (maxP - acc.length)
          split
          · simp only [List.length_append]
            exact ⟨by omega, by omega⟩
          · rw [if_pos (by omega)]
            simp only [List.length_append]
            exact ⟨by omega, by omega⟩
    · exact ⟨hacc, by omega⟩
  | succ n ih =>
    intro page hf hp acc fetches hacc
    rw [scrape_loop]
    split
    · rename_i hlt
      split
      · exact ⟨hacc, by omega⟩
      · rename_i containers henv
        split
        · exact ⟨hacc, by omega⟩
        · have hlen := pageProducts_length_le containers category base now
            (maxP - acc.length)
          split
          · simp only [List.length_append]
            exact ⟨by omega, by omega⟩
          · split
            · simp only [List.length_append]
              exact ⟨by omega, by omega⟩
            · rename_i hceil
              have := ih (page + 1) (by omega) (by omega)
                (acc ++ pageProducts containers category base now (maxP - acc.length))
                (fetches + 1) (by simp only [List.length_append]; omega)
              exact ⟨this.1, by omega⟩
    · exact ⟨hacc, by omega⟩

/-- C8: for every fetch/extraction behaviour (`env` arbitrary, in
particular a site that always returns fresh extractable products) the
per-category crawl loop terminates having fetched at most 10 pages — the
hard ceiling, independent of the configured cap — and the accumulated
record list never exceeds the configured per-category cap. -/
theorem scrape_category_bounds (env : ℕ → Option (List Container))
    (category base now : String) (maxProducts : ℕ) :
    (scrape_category env category base now maxProducts).1.length ≤ maxProducts ∧
    (scrape_category env category base now maxProducts).2 ≤ 10 := by
  have h := scrape_loop_bounds env category base now maxProducts 10 1
    (by omega) (by omega) [] 0 (by simp)
  exact ⟨h.1, by simpa using h.2⟩

lemma add_div_eq_ceil (t s : ℕ) (hs : 1 ≤ s) :
    ((t + s - 1) / s : ℕ) = ⌈(t : ℚ) / (s : ℚ)⌉₊ := by
  rcases Nat.eq_zero_or_pos t with ht | ht
  · subst ht
    simp [Nat.div_eq_of_lt (by omega : s - 1 < s)]
  · have hs0 : (0:ℚ) < (s:ℚ) := by exact_mod_cast hs
    have hnge : 1 ≤ (t + s - 1) / s := by
      rw [Nat.le_div_iff_mul_le (by omega)]
      omega
    have h1 : (t + s - 1) / s * s ≤ t + s - 1 := Nat.div_mul_le_self _ _
    have h2 : t + s - 1 < (t + s - 1) / s * s + s := Nat.lt_div_mul_add (by omega)
    generalize hgen : (t + s - 1) / s = n at hnge h1 h2 ⊢
    obtain ⟨m, rfl⟩ : ∃ m, n = m + 1 := ⟨n - 1, by omega⟩
    have hms1 : m * s + s ≤ t + s - 1 := by
      calc m * s + s = (m + 1) * s := by ring
      _ ≤ t + s - 1 := h1
    have hms2 : t + s - 1 < m * s + s + s := by
      calc t + s - 1 < (m + 1) * s + s := h2
      _ = m * s + s + s := by ring
    have hlow : m * s < t := by
      generalize m * s = P at hms1 hms2 ⊢
      omega
    have hhigh : t ≤ (m + 1) * s := by
      have h3 : t ≤ m * s + s := by
        generalize hq : m * s = P at hms1 hms2 ⊢
        omega
      calc t ≤ m * s + s := h3
        _ = (m + 1) * s := by ring
    symm
    rw [Nat.ceil_eq_iff (by omega : m + 1 ≠ 0)]
    constructor
    · rw [lt_div_iff₀ hs0]
      have he : ((m + 1 - 1 : ℕ) : ℚ) = (m : ℚ) := by norm_num
      rw [he]
      exact_mod_cast hlow
    · rw [div_le_iff₀ hs0]
      exact_mod_cast hhigh

set_option maxHeartbeats 4000000 in
lemma applyFilters_eq_filter (data : List Product) (f : Filters) :
    applyFilters data f = data.filter (matchesFilters f) := by
  obtain ⟨c, s, mn, mx, b, st, se⟩ := f
  unfold applyFilters matchesFilters
  cases c <;> cases s <;> cases mn <;> cases mx <;> cases b <;> cases st <;> cases se <;>
    simp only [] <;> (try split_ifs) <;>
    simp_all [List.filter_filter, Bool.and_assoc, Bool.and_comm, Bool.and_left_comm]

/-- C1: `get_materials` computes `total` as the number of records passing
the conjunction of all supplied filters (the sequential filtering steps
equal one conjunctive filter), `total_pages` as `⌈total / per_page⌉`, and
returns the contiguous slice of the filtered sequence from index
`(page-1)*per_page` to `page*per_page`; over a 45-record catalog with no
filters and `page = 1`, `per_page = 20` it returns exactly 20 records,
`total = 45` and `total_pages = 3`. -/
theorem get_materials_contract :
    (∀ (data : List Product) (f : Filters) (page per_page : ℕ),
      1 ≤ page → 1 ≤ per_page →
      get_materials data f page per_page =
        { total := (data.filter (matchesFilters f)).length,
          page := page, per_page := per_page,
          total_pages := ⌈((data.filter (matchesFilters f)).length : ℚ) / (per_page : ℚ)⌉₊,
          products := ((data.filter (matchesFilters f)).drop ((page - 1) * per_page)).take
            per_page,
          filters_applied := filtersApplied f }) ∧
    (get_materials catalog45 {} 1 20).products.length = 20 ∧
    (get_materials catalog45 {} 1 20).total = 45 ∧
    (get_materials catalog45 {} 1 20).total_pages = 3 := by
  refine ⟨?_, by decide, by decide, by decide⟩
  intro data f page per_page hpage hpp
  simp only [get_materials]
  rw [applyFilters_eq_filter, add_div_eq_ceil _ _ hpp]

/-- Witness for C1's general part, instantiated at the 45-record catalog
with no filters, `page = 1`, `per_page = 20`. -/
theorem get_materials_contract_witness :
    get_materials catalog45 {} 1 20 =
      { total := (catalog45.filter (matchesFilters {})).length,
        page := 1, per_page := 20,
        total_pages := ⌈((catalog45.filter (matchesFilters {})).length : ℚ) / (20 : ℚ)⌉₊,
        products := ((catalog45.filter (matchesFilters {})).drop ((1 - 1) * 20)).take 20,
        filters_applied := filtersApplied {} } :=
  get_materials_contract.1 catalog45 {} 1 20 (by decide) (by decide)

/-- C10: whenever the slice start `(page-1)*per_page` is at least the size
of the filtered set, `get_materials` returns an empty product list while
`total` and `total_pages` are still computed over the whole filtered set;
the out-of-range slice is total — no error is raised. -/
theorem get_materials_out_of_range (data : List Product) (f : Filters)
    (page per_page : ℕ)
    (h : (applyFilters data f).length ≤ (page - 1) * per_page) :
    (get_materials data f page per_page).products = [] ∧
    (get_materials data f page per_page).total = (applyFilters data f).length ∧
    (get_materials data f page per_page).total_pages =
      ((applyFilters data f).length + per_page - 1) / per_page := by
  refine ⟨?_, rfl, rfl⟩
  show ((applyFilters data f).drop ((page - 1) * per_page)).take per_page = []
  rw [List.drop_eq_nil_of_le h, List.take_nil]

/-- Witness for C10: `page = 4`, `per_page = 20` over the 45-record catalog
(start index 60 ≥ 45). -/
theorem get_materials_out_of_range_witness :
    (get_materials catalog45 {} 4 20).products = [] ∧
    (get_materials catalog45 {} 4 20).total = (applyFilters catalog45 {}).length ∧
    (get_materials catalog45 {} 4 20).total_pages =
      ((applyFilters catalog45 {}).length + 20 - 1) / 20 :=
  get_materials_out_of_range catalog45 {} 4 20 (by decide)

lemma lookupGroup_groupInsert (acc : List (String × List Product)) (k k' : String)
    (p : Product) :
    lookupGroup (groupInsert acc k p) k' =
      if k' = k then lookupGroup acc k ++ [p] else lookupGroup acc k' := by
  induction acc with
  | nil =>
    by_cases h : k' = k
    · subst h; simp [groupInsert, lookupGroup]
    · have h' : ¬ k = k' := fun hh => h hh.symm
      simp [groupInsert, lookupGroup, h, h']
  | cons kg t ih =>
    obtain ⟨k0, l0⟩ := kg
    by_cases h0 : k0 = k
    · subst h0
      by_cases h : k' = k0
      · subst h; simp [groupInsert, lookupGroup]
      · have h' : ¬ k0 = k' := fun hh => h hh.symm
        simp [groupInsert, lookupGroup, h, h']
    · by_cases h : k' = k0
      · subst h
        simp [groupInsert, lookupGroup, h0]
      · have h' : ¬ k0 = k' := fun hh => h hh.symm
        simp [groupInsert, lookupGroup, h0, h', ih]

lemma lookupGroup_foldl (key : Product → String) :
    ∀ (ps : List Product) (acc : List (String × List Product)) (k : String),
      lookupGroup (ps.foldl (fun a p => groupInsert a (key p) p) acc) k =
        lookupGroup acc k ++ ps.filter (fun p => key p == k) := by
  intro ps
  induction ps with
  | nil => intro acc k; simp
  | cons p t ih =>
    intro acc k
    simp only [List.foldl_cons, List.filter_cons]
    rw [ih, lookupGroup_groupInsert]
    by_cases h : key p = k
    · simp [h, List.append_assoc]
    · have h' : ¬ k = key p := fun hh => h hh.symm
      simp [h, h']

lemma keys_groupInsert (acc : List (String × List Product)) (k : String) (p : Product) :
    (groupInsert acc k p).map Prod.fst =
      if k ∈ acc.map Prod.fst then acc.map Prod.fst else acc.map Prod.fst ++ [k] := by
  induction acc with
  | nil => simp [groupInsert]
  | cons kg t ih =>
    obtain ⟨k0, l0⟩ := kg
    by_cases h0 : k0 = k
    · subst h0; simp [groupInsert]
    · have h' : ¬ k = k0 := fun hh => h0 hh.symm
      by_cases hm : k ∈ t.map Prod.fst <;>
        simp [groupInsert, h0, h', hm, ih]

lemma nodup_keys_groupInsert (acc : List (String × List Product)) (k : String)
    (p : Product) (h : (acc.map Prod.fst).Nodup) :
    ((groupInsert acc k p).map Prod.fst).Nodup := by
  rw [keys_groupInsert]
  by_cases hm : k ∈ acc.map Prod.fst
  · simpa [hm] using h
  · rw [if_neg hm]
    exact List.Nodup.append h (List.nodup_singleton k)
      (by simp [List.disjoint_singleton, hm])

lemma nodup_keys_foldl (key : Product → String) :
    ∀ (ps : List Product) (acc : List (String × List Product)),
      (acc.map Prod.fst).Nodup →
      ((ps.foldl (fun a p => groupInsert a (key p) p) acc).map Prod.fst).Nodup := by
  intro ps
  induction ps with
  | nil => intro acc h; simpa using h
  | cons p t ih =>
    intro acc h
    simp only [List.foldl_cons]
    exact ih _ (nodup_keys_groupInsert _ _ _ h)

lemma lookupGroup_of_mem (acc : List (String × List Product))
    (kg : String × List Product) (hmem : kg ∈ acc) (h : (acc.map Prod.fst).Nodup) :
    lookupGroup acc kg.1 = kg.2 := by
  induction acc with
  | nil => cases hmem
  | cons a t ih =>
    obtain ⟨k0, l0⟩ := a
    rcases List.mem_cons.mp hmem with heq | hmem'
    · subst heq; simp [lookupGroup]
    · simp only [List.map_cons, List.nodup_cons] at h
      have hne : ¬ k0 = kg.1 := by
        intro hh
        exact h.1 (hh ▸ List.mem_map_of_mem Prod.fst hmem')
      simp only [lookupGroup, if_neg hne]
      exact ih hmem' h.2

lemma mem_keys_foldl (key : Product → String) :
    ∀ (ps : List Product) (acc : List (String × List Product)) (k : String),
      (k ∈ (ps.foldl (fun a p => groupInsert a (key p) p) acc).map Prod.fst ↔
        k ∈ acc.map Prod.fst ∨ ∃ p ∈ ps, key p = k) := by
  intro ps
  induction ps with
  | nil => intro acc k; simp
  | cons p t ih =>
    intro acc k
    simp only [List.foldl_cons]
    rw [ih]
    rw [keys_groupInsert]
    by_cases hm : key p ∈ acc.map Prod.fst
    · rw [if_pos hm]
      constructor
      · rintro (h | ⟨q, hq, hk⟩)
        · exact Or.inl h
        · exact Or.inr ⟨q, List.mem_cons_of_mem _ hq, hk⟩
      · rintro (h | ⟨q, hq, hk⟩)
        · exact Or.inl h
        · rcases List.mem_cons.mp hq with rfl | hq'
          · exact Or.inl (hk ▸ hm)
          · exact Or.inr ⟨q, hq', hk⟩
    · rw [if_neg hm]
      constructor
      · rintro (h | ⟨q, hq, hk⟩)
        · rcases List.mem_append.mp h with h' | h'
          · exact Or.inl h'
          · simp only [List.mem_singleton] at h'
            exact Or.inr ⟨p, by simp, h'.symm⟩
        · exact Or.inr ⟨q, List.mem_cons_of_mem _ hq, hk⟩
      · rintro (h | ⟨q, hq, hk⟩)
        · exact Or.inl (List.mem_append.mpr (Or.inl h))
        · rcases List.mem_cons.mp hq with rfl | hq'
          · exact Or.inl (List.mem_append.mpr (Or.inr (by simp [hk])))
          · exact Or.inr ⟨q, hq', hk⟩

/-- C3: in every aggregate of `get_categories`, `product_count` counts
*all* records of the key while `average_price` and the price range are
computed only over the key's records with strictly positive price (0 if
there are none); `get_suppliers` counts and averages the same way; every
category present in the catalog has an aggregate; and the spec's example —
prices `{10, 20}` plus one 0-price record under `"cat1"` — yields
`product_count = 3`, `average_price = 15`, `price_range = {10, 20}`. -/
theorem aggregation_positive_prices :
    (∀ (ps : List Product) (r : CategoryResponse), r ∈ get_categories ps →
      r.product_count = (ps.filter (fun p => p.category == r.name)).length ∧
      (let pos := ((ps.filter (fun p => p.category == r.name)).map
          (fun p => p.price)).filter (fun q => 0 < q)
       r.average_price = (if pos.isEmpty then 0 else pos.sum / (pos.length : ℚ)) ∧
       r.price_min = (if pos.isEmpty then 0 else listMin pos) ∧
       r.price_max = (if pos.isEmpty then 0 else listMax pos))) ∧
    (∀ (ps : List Product) (lu : String) (r : SupplierResponse),
      r ∈ get_suppliers ps lu →
      r.product_count = (ps.filter (fun p => p.supplier == r.name)).length ∧
      (let pos := ((ps.filter (fun p => p.supplier == r.name)).map
          (fun p => p.price)).filter (fun q => 0 < q)
       r.average_price = (if pos.isEmpty then 0 else pos.sum / (pos.length : ℚ)))) ∧
    (∀ (ps : List Product) (k : String),
      (∃ p ∈ ps, p.category = k) ↔ ∃ r ∈ get_categories ps, r.name = k) ∧
    get_categories cat1Example = [cat1Response] := by
  refine ⟨?_, ?_, ?_, ?_⟩
  · intro ps r hr
    have hperm := List.mergeSort_perm ((groupByKey (fun p => p.category) ps).map
      (fun kg => mkCategoryResponse kg.1 kg.2))
      (fun a b => decide (b.product_count ≤ a.product_count))
    have hr' : r ∈ (groupByKey (fun p => p.category) ps).map
        (fun kg => mkCategoryResponse kg.1 kg.2) := hperm.mem_iff.mp hr
    obtain ⟨kg, hkg, rfl⟩ := List.mem_map.mp hr'
    have hnodup := nodup_keys_foldl (fun p => p.category) ps [] (by simp)
    have hlook := lookupGroup_of_mem _ kg hkg hnodup
    have hfold := lookupGroup_foldl (fun p => p.category) ps [] kg.1
    have hg : kg.2 = ps.filter (fun p => p.category == kg.1) := by
      rw [show groupByKey (fun p => p.category) ps =
        ps.foldl (fun a p => groupInsert a p.category p) [] from rfl] at hlook
      rw [hfold] at hlook
      simpa [lookupGroup] using hlook.symm
    have hname : (mkCategoryResponse kg.1 kg.2).name = kg.1 := rfl
    rw [hname, ← hg]
    exact ⟨rfl, rfl, rfl, rfl⟩
  · intro ps lu r hr
    have hperm := List.mergeSort_perm ((groupByKey (fun p => p.supplier) ps).map
      (fun kg => mkSupplierResponse kg.1 kg.2 lu))
      (fun a b => decide (b.product_count ≤ a.product_count))
    have hr' : r ∈ (groupByKey (fun p => p.supplier) ps).map
        (fun kg => mkSupplierResponse kg.1 kg.2 lu) := hperm.mem_iff.mp hr
    obtain ⟨kg, hkg, rfl⟩ := List.mem_map.mp hr'
    have hnodup := nodup_keys_foldl (fun p => p.supplier) ps [] (by simp)
    have hlook := lookupGroup_of_mem _ kg hkg hnodup
    have hfold := lookupGroup_foldl (fun p => p.supplier) ps [] kg.1
    have hg : kg.2 = ps.filter (fun p => p.supplier == kg.1) := by
      rw [show groupByKey (fun p => p.supplier) ps =
        ps.foldl (fun a p => groupInsert a p.supplier p) [] from rfl] at hlook
      rw [hfold] at hlook
      simpa [lookupGroup] using hlook.symm
    have hname : (mkSupplierResponse kg.1 kg.2 lu).name = kg.1 := rfl
    rw [hname, ← hg]
    exact ⟨rfl, rfl⟩
  · intro ps k
    have hperm := List.mergeSort_perm ((groupByKey (fun p => p.category) ps).map
      (fun kg => mkCategoryResponse kg.1 kg.2))
      (fun a b => decide (b.product_count ≤ a.product_count))
    constructor
    · intro h
      have hk : k ∈ (groupByKey (fun p => p.category) ps).map Prod.fst :=
        (mem_keys_foldl (fun p => p.category) ps [] k).mpr (Or.inr h)
      obtain ⟨kg, hkg, hk1⟩ := List.mem_map.mp hk
      exact ⟨mkCategoryResponse kg.1 kg.2,
        hperm.mem_iff.mpr (List.mem_map_of_mem _ hkg), hk1⟩
    · rintro ⟨r, hr, hrk⟩
      have hr' := hperm.mem_iff.mp hr
      obtain ⟨kg, hkg, rfl⟩ := List.mem_map.mp hr'
      have hmemk : kg.1 ∈ (groupByKey (fun p => p.category) ps).map Prod.fst :=
        List.mem_map_of_mem _ hkg
      rcases (mem_keys_foldl (fun p => p.category) ps [] kg.1).mp hmemk with h0 | h
      · simp at h0
      · exact hrk ▸ h
  · have h1 : groupByKey (fun p => p.category) cat1Example =
        [("cat1", cat1Example)] := by
      simp [groupByKey, cat1Example, groupInsert]
    rw [get_categories, h1]
    simp only [List.map_cons, List.map_nil, List.mergeSort_singleton]
    simp [mkCategoryResponse, cat1Example, cat1Response, dedupFirst, listMin, listMax]
    norm_num [min_def, max_def]

/-- Witness for C3: the `"cat1"` aggregate of the example catalog is
produced, and its `product_count` counts all three records of the key. -/
theorem aggregation_positive_prices_witness :
    cat1Response ∈ get_categories cat1Example ∧
    cat1Response.product_count =
      (cat1Example.filter (fun p => p.category == cat1Response.name)).length := by
  have hmem : cat1Response ∈ get_categories cat1Example := by
    rw [aggregation_positive_prices.2.2.2]
    simp
  exact ⟨hmem, (aggregation_positive_prices.1 cat1Example cat1Response hmem).1⟩

end Donizo
